import Mathlib

/-!
Shallow embedding of the knex-schema-builder migration engine
(class `KnexSchemaBuilder`, the async/await implementation).

The underlying SQL driver (knex) is modelled as an oracle deciding, for each
schema-mutation call the engine issues, whether the call succeeds or fails
with some error.  File loading is modelled by passing the parsed documents
as parameters (the schema mapping, the latest declared version, and a map
from version number to the outcome of reading that version's upgrade
descriptor).  The process-wide table-prefix global is fixed at its initial
value `""`, which the verified scenarios never change, so prefixed table
names coincide with the declared names.

JavaScript value semantics that matter here are modelled explicitly:
`null` is represented by `none` and coerces to `0` in arithmetic and
relational contexts (`jsNum`), and numeric truthiness (`0` is falsy) is
modelled where the source tests a field before using it.
-/

namespace Knex


/-- JS numeric coercion: `null` (here `none`) coerces to `0` when used in
arithmetic or relational operators, as in `currentVersion < latestVersion`
and `currentVersion + 1` with a `null` current version. -/
def jsNum : Option Int → Int
  | none => 0
  | some v => v

/-- A declared table column.  The migration engine's control flow inspects
only the `name` (for `addColumn`/`alterColumn` lookup and positioning);
`type` is carried as the second required field of the source's
`TableColumnDescription`, and the remaining optional attributes are passed
opaquely to the driver inside the issued call. -/
structure ColumnDescription where
  name : String
  type : String
deriving DecidableEq, Repr

/-- A declared table.  Indexes, foreign keys, primary key and timestamps are
forwarded opaquely to the driver by the calls that carry the table name, so
only the ordered column list (which the engine inspects) is kept. -/
structure TableDescription where
  columns : List ColumnDescription
deriving DecidableEq, Repr

/-- The schema document: a mapping from table name to its description,
with the declared iteration order preserved. -/
def Schema := List (String × TableDescription)

/-- `schema[action.table]` property lookup (a present table description is
always truthy in JS). -/
def lookupTable (schema : Schema) (t : String) : Option TableDescription :=
  (List.find? (fun p => p.1 = t) schema).map (fun p => p.2)

/-- A raw query value from a descriptor: either a single string or a
sequence of strings. -/
inductive QVal
  | str (s : String)
  | arr (l : List String)
deriving DecidableEq, Repr

/-- The source joins an array query with newlines when its first element is
a string (`rawQuery.join ...`); an empty array has no string first element
and stays an array (`none`). -/
def joinedQuery : QVal → Option String
  | QVal.str s => some s
  | QVal.arr [] => none
  | QVal.arr l => some (String.intercalate "\n" l)

/-- The process-wide table-prefix global, fixed at its initial value. -/
def tablePfx : String := ""

/-- Position directive for a column mutation (`pendingCol.after name` or
`pendingCol.first`). -/
inductive ColumnPos
  | first
  | after (name : String)
deriving DecidableEq, Repr

/-- The target of a `dropIndex`/`dropForeign`/`dropUnique` action: by index
name when `action.name` is truthy, otherwise by column. -/
inductive DropTarget
  | byName (n : String)
  | byColumn (c : String)
deriving DecidableEq, Repr

/-- One schema-driver call issued by the engine, at the knex boundary.
Payloads that the engine never inspects (index lists, foreign-key fields,
engine/charset and so on) ride along inside the named table's description
and are not repeated here. -/
inductive DriverCall
  | rawQuery (q : String)
  | createTable (t : String)
  | createTableIndexes (t : String)
  | createTableForeignKeys (t : String)
  | addColumn (t : String) (col : ColumnDescription) (pos : Option ColumnPos)
  | alterColumn (t : String) (col : ColumnDescription) (pos : Option ColumnPos)
  | renameColumn (t fromName toName : String)
  | createIndex (t : String)
  | createForeign (t : String)
  | dropColumn (t c : String)
  | dropTable (t : String)
  | dropPrimary (t : String)
  | dropIndex (t : String) (target : DropTarget)
  | dropForeign (t : String) (target : DropTarget)
  | dropUnique (t : String) (target : DropTarget)
  | addTimestamps (t : String)
  | dropTimestamps (t : String)
deriving DecidableEq, Repr

/-- A driver error, identified by its `code` property (the engine only ever
inspects `err.code`). -/
structure Err where
  code : String
deriving DecidableEq, Repr

/-- The driver oracle: for each issued call, `none` means the call
succeeded, `some e` that it failed with `e`. -/
def Oracle := DriverCall → Option Err

/-- Errors surfacing from the engine. -/
inductive UpErr
  | driver (e : Err)
  | thrown (s : String)
  | parse
  | fileRead (code : String)
  | typeErr (s : String)
  | wrapped (msg : String) (e : Err)
deriving DecidableEq, Repr

/-- The target database, as far as the engine's bookkeeping goes: whether
the `schema_globals` table exists, and the value of its `db_version` row
(`none` = row absent). -/
structure DbState where
  globalsExist : Bool
  dbVersion : Option Int
deriving DecidableEq, Repr

/-- `ensureSchemaGlobalsExist`: check-then-create.  A freshly created
bookkeeping table holds no rows.  Returns whether it was created now. -/
def ensureSchemaGlobalsExist (s : DbState) : DbState × Bool :=
  if s.globalsExist then (s, false)
  else ({ globalsExist := true, dbVersion := none }, true)

/-- `getCurrentDbVersion`: ensure the bookkeeping table exists, then select
the `db_version` row; `none` when the row is absent. -/
def getCurrentDbVersion (s : DbState) : DbState × Option Int :=
  let s1 := (ensureSchemaGlobalsExist s).1
  (s1, s1.dbVersion)

/-- Which write `setCurrentDbVersion` performed against the row. -/
inductive SetOp
  | insertedRow
  | updatedRow
deriving DecidableEq, Repr

/-- `setCurrentDbVersion`: re-read the current value; insert a new row when
it is absent (`== null`), update the existing row otherwise. -/
def setCurrentDbVersion (s : DbState) (version : Option Int) : DbState × SetOp :=
  let r := getCurrentDbVersion s
  match r.2 with
  | none => ({ r.1 with dbVersion := version }, SetOp.insertedRow)
  | some _ => ({ r.1 with dbVersion := version }, SetOp.updatedRow)

/-- The literal `\x7btable_prefix\x7d` placeholder that `db.raw` arguments
are filtered through (`rawQuery.replace(..., _tablePrefix)`). -/
def phPat : List Char := "\x7btable_prefix\x7d".toList

/-- Global, leftmost, non-overlapping replacement of the placeholder by the
table prefix, on character lists; the fuel argument (instantiated with the
input length) only makes the recursion structural. -/
def stripPhF : Nat → List Char → List Char
  | 0, l => l
  | _, [] => []
  | fuel + 1, c :: rest =>
    if phPat.isPrefixOf (c :: rest) then
      tablePfx.toList ++ stripPhF fuel (List.drop phPat.length (c :: rest))
    else c :: stripPhF fuel rest

/-- `q.replace(/\x7btable_prefix\x7d/g, _tablePrefix)` as applied to every
string handed to `db.raw`. -/
def applyTablePfx (q : String) : String :=
  String.mk (stripPhF q.toList.length q.toList)

/-- One declarative upgrade action.  Field names mirror the JSON keys
(`fromName`/`toName` stand for the keys `from`/`to`, which are reserved
words here); string fields use `""` for an absent key, matching JS
falsiness of both `undefined` and the empty string in every use the engine
makes of them, while `min_version`/`max_version` keep the
absent-versus-zero distinction the truthiness test can observe. -/
structure UAction where
  action : String
  table : String
  column : String
  fromName : String
  toName : String
  name : String
  query : QVal
  min_version : Option Int
  max_version : Option Int
  ignore_errors : Bool
deriving DecidableEq, Repr

/-- Truthiness of a `min_version`/`max_version` field: present and nonzero. -/
def tBound : Option Int → Bool
  | none => false
  | some m => m != 0

/-- The two applicability guards, evaluated against the version the upgrade
started from: `action.min_version && action.min_version >= originalVersion`
skips, and so does `action.max_version && action.max_version <=
originalVersion`. -/
def boundsSkip (a : UAction) (originalVersion : Option Int) : Bool :=
  (tBound a.min_version && jsNum a.min_version ≥ jsNum originalVersion)
    || (tBound a.max_version && jsNum a.max_version ≤ jsNum originalVersion)

/-- `softThrow`: a truthy error is swallowed when the action carries
`ignore_errors` (passed here as the boolean the closure reads), and
propagated otherwise. -/
def softThrow (ignore : Bool) (e : UpErr) : Option UpErr :=
  if ignore then none else some e

/-- Issue one driver call and feed its outcome to `softThrow`. -/
def plainCall (drv : Oracle) (ignore : Bool) (c : DriverCall) :
    List DriverCall × Option UpErr :=
  ([c], match drv c with
    | none => none
    | some e => softThrow ignore (UpErr.driver e))

/-- The position directive computed for a found column: after its
predecessor in the declared column order (`columns[indexOf(column) - 1]`),
or first when it has none (a found index of `0` has no predecessor, like
the JS `columns[-1]`). -/
def computedPos (columns : List ColumnDescription) (colName : String) :
    ColumnPos :=
  let idx := List.findIdx (fun item => item.name = colName) columns
  let prevColumn : Option ColumnDescription :=
    if idx = 0 then none else columns[idx - 1]?
  match prevColumn with
  | some p => ColumnPos.after p.name
  | none => ColumnPos.first

/-- The shared `addColumn`/`alterColumn` body: find the declared column by
name, issue the call positioned at `computedPos` (after its predecessor in
the declared order, or first), and on an `ER_BAD_FIELD_ERROR` failure retry
once without the position directive; only the retry's failure, or a first
failure with a different code, reaches `softThrow`. -/
def columnMutation (mk : String → ColumnDescription → Option ColumnPos → DriverCall)
    (drv : Oracle) (tableName colName : String) (ignore : Bool)
    (td : TableDescription) : List DriverCall × Option UpErr :=
  let columns := td.columns
  match List.find? (fun item => item.name = colName) columns with
  | some column =>
    let c1 := mk tableName column (some (computedPos columns colName))
    match drv c1 with
    | none => ([c1], none)
    | some e =>
      if e.code = "ER_BAD_FIELD_ERROR" then
        let c2 := mk tableName column none
        ([c1, c2], match drv c2 with
          | none => none
          | some e2 => softThrow ignore (UpErr.driver e2))
      else ([c1], softThrow ignore (UpErr.driver e))
  | none => ([], softThrow ignore (UpErr.thrown "unknown-column"))

/-- The Action Interpreter: run one upgrade action, returning the driver
calls it issued in order and the error it propagates, if any.  A `none`
error with no calls is either an applicability skip or a suppressed
failure. -/
def runAction (schema : Schema) (drv : Oracle) (originalVersion : Option Int)
    (a : UAction) : List DriverCall × Option UpErr :=
  if boundsSkip a originalVersion then ([], none)
  else
    match a.action with
    | "execute" =>
      match joinedQuery a.query with
      | some s => plainCall drv a.ignore_errors (DriverCall.rawQuery (applyTablePfx s))
      | none => ([], some (UpErr.typeErr "rawQuery.replace is not a function"))
    | "createTable" =>
      match lookupTable schema a.table with
      | some _ => plainCall drv a.ignore_errors (DriverCall.createTable a.table)
      | none => ([], softThrow a.ignore_errors (UpErr.thrown "unknown-table"))
    | "createTableIndexes" =>
      match lookupTable schema a.table with
      | some _ => plainCall drv a.ignore_errors (DriverCall.createTableIndexes a.table)
      | none => ([], softThrow a.ignore_errors (UpErr.thrown "unknown-table"))
    | "createTableForeignKeys" =>
      match lookupTable schema a.table with
      | some _ => plainCall drv a.ignore_errors (DriverCall.createTableForeignKeys a.table)
      | none => ([], softThrow a.ignore_errors (UpErr.thrown "unknown-table"))
    | "addColumn" =>
      match lookupTable schema a.table with
      | some td => columnMutation DriverCall.addColumn drv a.table a.column a.ignore_errors td
      | none => ([], softThrow a.ignore_errors (UpErr.thrown "unknown-table"))
    | "alterColumn" =>
      match lookupTable schema a.table with
      | some td => columnMutation DriverCall.alterColumn drv a.table a.column a.ignore_errors td
      | none => ([], softThrow a.ignore_errors (UpErr.thrown "unknown-table"))
    | "renameColumn" =>
      plainCall drv a.ignore_errors (DriverCall.renameColumn a.table a.fromName a.toName)
    | "createIndex" => plainCall drv a.ignore_errors (DriverCall.createIndex a.table)
    | "createForeign" => plainCall drv a.ignore_errors (DriverCall.createForeign a.table)
    | "dropColumn" => plainCall drv a.ignore_errors (DriverCall.dropColumn a.table a.column)
    | "dropTable" => plainCall drv a.ignore_errors (DriverCall.dropTable a.table)
    | "dropPrimary" => plainCall drv a.ignore_errors (DriverCall.dropPrimary a.table)
    | "dropIndex" =>
      plainCall drv a.ignore_errors (DriverCall.dropIndex a.table
        (if a.name ≠ "" then DropTarget.byName a.name else DropTarget.byColumn a.column))
    | "dropForeign" =>
      plainCall drv a.ignore_errors (DriverCall.dropForeign a.table
        (if a.name ≠ "" then DropTarget.byName a.name else DropTarget.byColumn a.column))
    | "dropUnique" =>
      plainCall drv a.ignore_errors (DriverCall.dropUnique a.table
        (if a.name ≠ "" then DropTarget.byName a.name else DropTarget.byColumn a.column))
    | "addTimestamps" => plainCall drv a.ignore_errors (DriverCall.addTimestamps a.table)
    | "dropTimestamps" => plainCall drv a.ignore_errors (DriverCall.dropTimestamps a.table)
    | _ => ([], softThrow a.ignore_errors (UpErr.thrown "unknown-action"))

/-- Run a descriptor's actions in declared order, stopping at the first
propagated error. -/
def runActions (schema : Schema) (drv : Oracle) (originalVersion : Option Int) :
    List UAction → List DriverCall × Option UpErr
  | [] => ([], none)
  | a :: rest =>
    match runAction schema drv originalVersion a with
    | (cs, none) =>
      let r := runActions schema drv originalVersion rest
      (cs ++ r.1, r.2)
    | (cs, some e) => (cs, some e)

/-- The outcome of reading and parsing `upgrade.K.json`: the file system
reports not-found (`ENOENT`) or some other error code, or the contents
fail `JSON.parse`, or a list of actions is obtained. -/
inductive DescriptorFile
  | notFound
  | fileErr (code : String)
  | malformed
  | actions (as : List UAction)
deriving DecidableEq, Repr

/-- The upgrade while-loop.  `fuel` only makes the recursion structural and
is instantiated so that it never runs out before the loop condition fails.
Returns the driver calls issued, the final `currentVersion`, and the error
that aborted the loop, if any.  A not-found descriptor advances the version
and continues; a malformed or otherwise unreadable one aborts without
advancing; a clean pass over the actions advances, and a propagated action
error aborts without advancing. -/
def upgradeLoopF (schema : Schema) (drv : Oracle) (files : Int → DescriptorFile)
    (originalVersion : Option Int) (latestVersion : Option Int) :
    Nat → Option Int → List DriverCall × Option Int × Option UpErr
  | 0, currentVersion => ([], currentVersion, none)
  | fuel + 1, currentVersion =>
    if jsNum currentVersion < jsNum latestVersion then
      match files (jsNum currentVersion + 1) with
      | DescriptorFile.notFound =>
        upgradeLoopF schema drv files originalVersion latestVersion fuel
          (some (jsNum currentVersion + 1))
      | DescriptorFile.fileErr c => ([], currentVersion, some (UpErr.fileRead c))
      | DescriptorFile.malformed => ([], currentVersion, some UpErr.parse)
      | DescriptorFile.actions as =>
        match runActions schema drv originalVersion as with
        | (cs, none) =>
          let rest := upgradeLoopF schema drv files originalVersion latestVersion fuel
            (some (jsNum currentVersion + 1))
          (cs ++ rest.1, rest.2)
        | (cs, some e) => (cs, currentVersion, some e)
    else ([], currentVersion, none)

/-- The upgrade while-loop at its canonical fuel: enough iterations to take
`currentVersion` up to `latestVersion`. -/
def upgradeLoop (schema : Schema) (drv : Oracle) (files : Int → DescriptorFile)
    (originalVersion : Option Int) (latestVersion : Option Int)
    (currentVersion : Option Int) : List DriverCall × Option Int × Option UpErr :=
  upgradeLoopF schema drv files originalVersion latestVersion
    (jsNum latestVersion - jsNum currentVersion).toNat currentVersion

/-- An observable event of a run: a schema-driver call, or an invocation of
`setCurrentDbVersion` with the value being persisted. -/
inductive Event
  | call (c : DriverCall)
  | setVersion (v : Option Int)
deriving DecidableEq, Repr

/-- The outcome of an `upgrade` run. -/
structure UpgradeOut where
  events : List Event
  db : DbState
  error : Option UpErr
  saveVersion : Option Int
deriving Repr

/-- `upgrade`: read the current version (`originalVersion`), run the loop,
and in the `finally` blocks compute `saveVersion` (the reached version on
abort, `latestVersion` on completion) and persist it through the Version
Store — but only when it differs (`!==`) from `originalVersion`.  The
loop's error, if any, is re-raised after that. -/
def upgrade (schema : Schema) (files : Int → DescriptorFile)
    (latestVersion : Option Int) (drv : Oracle) (s0 : DbState) : UpgradeOut :=
  let g := getCurrentDbVersion s0
  let originalVersion := g.2
  let r := upgradeLoop schema drv files originalVersion latestVersion originalVersion
  let saveVersion : Option Int :=
    match r.2.2 with
    | none => latestVersion
    | some _ => r.2.1
  if saveVersion ≠ originalVersion then
    let st := setCurrentDbVersion g.1 saveVersion
    { events := r.1.map Event.call ++ [Event.setVersion saveVersion],
      db := st.1, error := r.2.2, saveVersion := saveVersion }
  else
    { events := r.1.map Event.call, db := g.1, error := r.2.2,
      saveVersion := saveVersion }

/-- Is a character a regex word character (`\w`)? -/
def isWordChar (c : Char) : Bool := c.isAlphanum || c = '_'

/-- Can a match boundary sit at position `i` of `l`, for the pattern's
`(\b|_)` groups: at either end of the string, next to a non-word
character, or next to a literal underscore (consumed by the `_`
alternative, since `_` is itself a word character and defeats `\b`). -/
def phBoundary (l : List Char) (i : Nat) : Bool :=
  match l[i - 1]?, i with
  | _, 0 => true
  | none, _ => true
  | some c, _ => !isWordChar c || c = '_'

/-- Does one of the words match at position `i` of `l` with admissible
boundaries on both sides? -/
def existsWordAt (l : List Char) (i : Nat) (w : List Char) : Bool :=
  phBoundary l i && List.take w.length (List.drop i l) = w
    && (match l[i + w.length]? with
        | none => true
        | some c => !isWordChar c || c = '_')

/-- The `defaultErrorHandler` test
`/(\b|_)(exists|duplicate|dup)(\b|_)/i.test(err.code)`. -/
def existsLikeCode (code : String) : Bool :=
  let l := code.toLower.toList
  (List.range (l.length + 1)).any (fun i =>
    ["exists", "duplicate", "dup"].any (fun w => existsWordAt l i w.toList))

/-- `defaultErrorHandler(ignoreExistsError)`: swallow errors whose code
looks like an already-exists/duplicate condition when asked to, propagate
everything else. -/
def defaultErrorHandler (ignoreExistsError : Bool) (e : Err) : Option UpErr :=
  if ignoreExistsError && existsLikeCode e.code then none
  else some (UpErr.driver e)

/-- Issue a list of driver calls in order, mapping each failure through a
handler that either suppresses it (continue) or converts it to the aborting
error. -/
def runSeq (drv : Oracle) (handler : DriverCall → Err → Option UpErr) :
    List DriverCall → List DriverCall × Option UpErr
  | [] => ([], none)
  | c :: rest =>
    match drv c with
    | none =>
      let r := runSeq drv handler rest
      (c :: r.1, r.2)
    | some e =>
      match handler c e with
      | none =>
        let r := runSeq drv handler rest
        (c :: r.1, r.2)
      | some err => ([c], some err)

/-- The raw-query bootstrap calls `install` issues: each entry is joined if
it is a string sequence, then executed only when the result is a truthy
(nonempty) string, after the table-prefix substitution. -/
def installRawCalls (raws : List QVal) : List DriverCall :=
  raws.filterMap (fun q =>
    match joinedQuery q with
    | some s => if s ≠ "" then some (DriverCall.rawQuery (applyTablePfx s)) else none
    | none => none)

/-- The outcome of an `install` run. -/
structure InstallOut where
  events : List Event
  db : DbState
  error : Option UpErr
deriving Repr

/-- `install`: create every declared table, then execute the raw bootstrap
queries in declared order, then apply every table's indexes, then every
table's foreign keys (index/foreign-key phase errors are wrapped in a
message naming the table), and finally persist the latest declared version.
Each phase completes before the next starts, and any non-suppressed error
aborts the remainder. -/
def install (tables : List (String × TableDescription)) (raws : List QVal)
    (latestVersion : Option Int) (ignoreExistsError : Bool) (drv : Oracle)
    (s0 : DbState) : InstallOut :=
  let h0 := fun (_ : DriverCall) (e : Err) => defaultErrorHandler ignoreExistsError e
  let r1 := runSeq drv h0 (tables.map (fun p => DriverCall.createTable p.1))
  match r1.2 with
  | some e => { events := r1.1.map Event.call, db := s0, error := some e }
  | none =>
    let r2 := runSeq drv h0 (installRawCalls raws)
    match r2.2 with
    | some e => { events := (r1.1 ++ r2.1).map Event.call, db := s0, error := some e }
    | none =>
      let hIdx := fun (c : DriverCall) (e : Err) =>
        if ignoreExistsError && existsLikeCode e.code then none
        else some (UpErr.wrapped ("Failed to create indexes for table " ++
          (match c with | DriverCall.createTableIndexes t => t | _ => "")) e)
      let r3 := runSeq drv hIdx (tables.map (fun p => DriverCall.createTableIndexes p.1))
      match r3.2 with
      | some e =>
        { events := (r1.1 ++ r2.1 ++ r3.1).map Event.call, db := s0, error := some e }
      | none =>
        let hFk := fun (c : DriverCall) (e : Err) =>
          if ignoreExistsError && existsLikeCode e.code then none
          else some (UpErr.wrapped ("Failed to create foreign keys for table " ++
            (match c with | DriverCall.createTableForeignKeys t => t | _ => "")) e)
        let r4 := runSeq drv hFk
          (tables.map (fun p => DriverCall.createTableForeignKeys p.1))
        match r4.2 with
        | some e =>
          { events := (r1.1 ++ r2.1 ++ r3.1 ++ r4.1).map Event.call, db := s0,
            error := some e }
        | none =>
          let st := setCurrentDbVersion s0 latestVersion
          { events := (r1.1 ++ r2.1 ++ r3.1 ++ r4.1).map Event.call
              ++ [Event.setVersion latestVersion],
            db := st.1, error := none }

/-- Is an event a Version Store persist? -/
def isSetVersion : Event → Bool
  | Event.setVersion _ => true
  | Event.call _ => false

/-- How many times a run persisted a version through the Version Store. -/
def countSetVersion (evs : List Event) : Nat :=
  (evs.filter isSetVersion).length

/-! The claims. -/

/-- An action record with every optional JSON key absent. -/
def baseAction (kind : String) : UAction :=
  { action := kind, table := "", column := "", fromName := "", toName := "",
    name := "", query := QVal.str "", min_version := none, max_version := none,
    ignore_errors := false }

/-- The descriptor entry `action: addColumn, table: t, column: c`. -/
def addColumnAction (t c : String) : UAction :=
  { baseAction "addColumn" with table := t, column := c }

/-- The descriptor entry `action: alterColumn, table: t, column: c`. -/
def alterColumnAction (t c : String) : UAction :=
  { baseAction "alterColumn" with table := t, column := c }

/-- The concrete bounded action used by the C3 witness. -/
def c3WitnessAct : UAction :=
  { baseAction "execute" with query := QVal.str "q", min_version := some 1, max_version := some 3 }

/-- A driver that fails every positioned column mutation with
`ER_BAD_FIELD_ERROR` and every unpositioned one with another code. -/
def badFieldDrv : Oracle := fun c =>
  match c with
  | DriverCall.addColumn _ _ (some _) => some ⟨"ER_BAD_FIELD_ERROR"⟩
  | DriverCall.alterColumn _ _ (some _) => some ⟨"ER_BAD_FIELD_ERROR"⟩
  | DriverCall.addColumn _ _ none => some ⟨"OTHER_ERROR"⟩
  | DriverCall.alterColumn _ _ none => some ⟨"OTHER_ERROR"⟩
  | _ => none

/-- The two-column table used by the C10 witness: target `b` has the
predecessor `a` (an after-a directive), target `a` has none (a first
directive). -/
def c10WitnessTable : TableDescription :=
  { columns := [⟨"a", "integer"⟩, ⟨"b", "integer"⟩] }

/-- The descriptor map used by the C5 witness: version 2's file is
malformed, version 1's is an empty action list. -/
def c5WitnessFiles : Int → DescriptorFile := fun k =>
  if k = 2 then DescriptorFile.malformed else DescriptorFile.actions []

/-- C1: the failing action and the driver/descriptor environment used by
the two C1 scenarios. -/
def boomAct : UAction := { baseAction "execute" with query := QVal.str "boom" }

/-- A driver failing exactly the query `boom`. -/
def boomDrv : Oracle := fun c =>
  if c = DriverCall.rawQuery "boom" then some ⟨"SOME_DB_ERROR"⟩ else none

/-- C1 counterexample descriptors: version 2's action list fails. -/
def c1CexFiles : Int → DescriptorFile := fun k =>
  if k = 2 then DescriptorFile.actions [boomAct] else DescriptorFile.notFound

/-- C1 witness descriptors: versions 2 succeeds (empty list), version 3
fails. -/
def c1WitnessFiles : Int → DescriptorFile := fun k =>
  if k = 3 then DescriptorFile.actions [boomAct] else DescriptorFile.actions []

/-- C2 scenario: version 1's descriptor holds one executable action. -/
def c2Files : Int → DescriptorFile := fun k =>
  if k = 1 then
    DescriptorFile.actions [{ baseAction "execute" with query := QVal.str "SELECT 1" }]
  else DescriptorFile.notFound

@[simp] theorem jsNum_none : jsNum none = 0 := rfl

@[simp] theorem jsNum_some (v : Int) : jsNum (some v) = v := rfl

/-! Basic facts about the embedded operations. -/

theorem getCurrentDbVersion_globalsExist (s : DbState) :
    (getCurrentDbVersion s).1.globalsExist = true := by
  unfold getCurrentDbVersion ensureSchemaGlobalsExist
  by_cases h : s.globalsExist <;> simp [h]

theorem getCurrentDbVersion_fst_dbVersion (s : DbState) :
    (getCurrentDbVersion s).1.dbVersion = (getCurrentDbVersion s).2 := rfl

theorem getCurrentDbVersion_snd (s : DbState) (h : s.globalsExist = true) :
    (getCurrentDbVersion s).2 = s.dbVersion := by
  unfold getCurrentDbVersion ensureSchemaGlobalsExist
  simp [h]

theorem setCurrentDbVersion_dbVersion (s : DbState) (v : Option Int) :
    (setCurrentDbVersion s v).1.dbVersion = v := by
  unfold setCurrentDbVersion
  rcases h : (getCurrentDbVersion s).2 with _ | w <;> simp [h]

theorem upgradeLoopF_congr (schema : Schema) (drv : Oracle)
    (files : Int → DescriptorFile) (orig L : Option Int) :
    ∀ f1 f2 cur, (jsNum L - jsNum cur).toNat ≤ f1 →
      (jsNum L - jsNum cur).toNat ≤ f2 →
      upgradeLoopF schema drv files orig L f1 cur
        = upgradeLoopF schema drv files orig L f2 cur := by
  intro f1
  induction f1 with
  | zero =>
    intro f2 cur h1 h2
    have hc : ¬ jsNum cur < jsNum L := by omega
    cases f2 with
    | zero => rfl
    | succ f => simp [upgradeLoopF, hc]
  | succ f ih =>
    intro f2 cur h1 h2
    cases f2 with
    | zero =>
      have hc : ¬ jsNum cur < jsNum L := by omega
      simp [upgradeLoopF, hc]
    | succ f2 =>
      by_cases hc : jsNum cur < jsNum L
      · have hb1 : (jsNum L - jsNum (some (jsNum cur + 1))).toNat ≤ f := by
          simp only [jsNum_some]; omega
        have hb2 : (jsNum L - jsNum (some (jsNum cur + 1))).toNat ≤ f2 := by
          simp only [jsNum_some]; omega
        simp only [upgradeLoopF, if_pos hc]
        cases hfile : files (jsNum cur + 1) with
        | notFound => exact ih f2 (some (jsNum cur + 1)) hb1 hb2
        | fileErr c => rfl
        | malformed => rfl
        | actions as =>
          rcases hr : runActions schema drv orig as with ⟨cs, e⟩
          cases e with
          | none =>
            simp only [hr]
            rw [ih f2 (some (jsNum cur + 1)) hb1 hb2]
          | some e => simp only [hr]
      · simp [upgradeLoopF, hc]

theorem upgradeLoop_stop (schema : Schema) (drv : Oracle)
    (files : Int → DescriptorFile) (orig L cur : Option Int)
    (hc : ¬ jsNum cur < jsNum L) :
    upgradeLoop schema drv files orig L cur = ([], cur, none) := by
  unfold upgradeLoop
  have h0 : (jsNum L - jsNum cur).toNat = 0 := by omega
  rw [h0]
  rfl

theorem upgradeLoop_succFuel (schema : Schema) (drv : Oracle)
    (files : Int → DescriptorFile) (orig L cur : Option Int)
    (hc : jsNum cur < jsNum L) :
    upgradeLoop schema drv files orig L cur
      = upgradeLoopF schema drv files orig L
          ((jsNum L - (jsNum cur + 1)).toNat + 1) cur := by
  unfold upgradeLoop
  have hk : (jsNum L - jsNum cur).toNat = (jsNum L - (jsNum cur + 1)).toNat + 1 := by
    omega
  rw [hk]

theorem upgradeLoop_notFound (schema : Schema) (drv : Oracle)
    (files : Int → DescriptorFile) (orig L cur : Option Int)
    (hc : jsNum cur < jsNum L)
    (hf : files (jsNum cur + 1) = DescriptorFile.notFound) :
    upgradeLoop schema drv files orig L cur
      = upgradeLoop schema drv files orig L (some (jsNum cur + 1)) := by
  rw [upgradeLoop_succFuel schema drv files orig L cur hc]
  simp only [upgradeLoopF, if_pos hc, hf]
  rfl

theorem upgradeLoop_malformed (schema : Schema) (drv : Oracle)
    (files : Int → DescriptorFile) (orig L cur : Option Int)
    (hc : jsNum cur < jsNum L)
    (hf : files (jsNum cur + 1) = DescriptorFile.malformed) :
    upgradeLoop schema drv files orig L cur = ([], cur, some UpErr.parse) := by
  rw [upgradeLoop_succFuel schema drv files orig L cur hc]
  simp only [upgradeLoopF, if_pos hc, hf]

theorem upgradeLoop_actions_ok (schema : Schema) (drv : Oracle)
    (files : Int → DescriptorFile) (orig L cur : Option Int) (as : List UAction)
    (cs : List DriverCall) (hc : jsNum cur < jsNum L)
    (hf : files (jsNum cur + 1) = DescriptorFile.actions as)
    (hr : runActions schema drv orig as = (cs, none)) :
    upgradeLoop schema drv files orig L cur
      = (cs ++ (upgradeLoop schema drv files orig L (some (jsNum cur + 1))).1,
         (upgradeLoop schema drv files orig L (some (jsNum cur + 1))).2) := by
  rw [upgradeLoop_succFuel schema drv files orig L cur hc]
  simp only [upgradeLoopF, if_pos hc, hf, hr]
  rfl

theorem upgradeLoop_actions_err (schema : Schema) (drv : Oracle)
    (files : Int → DescriptorFile) (orig L cur : Option Int) (as : List UAction)
    (cs : List DriverCall) (e : UpErr) (hc : jsNum cur < jsNum L)
    (hf : files (jsNum cur + 1) = DescriptorFile.actions as)
    (hr : runActions schema drv orig as = (cs, some e)) :
    upgradeLoop schema drv files orig L cur = (cs, cur, some e) := by
  rw [upgradeLoop_succFuel schema drv files orig L cur hc]
  simp only [upgradeLoopF, if_pos hc, hf, hr]

theorem upgradeLoopF_reached_ge (schema : Schema) (drv : Oracle)
    (files : Int → DescriptorFile) (orig L : Option Int) :
    ∀ fuel cur, jsNum cur ≤
      jsNum (upgradeLoopF schema drv files orig L fuel cur).2.1 := by
  intro fuel
  induction fuel with
  | zero => intro cur; exact le_refl _
  | succ f ih =>
    intro cur
    by_cases hc : jsNum cur < jsNum L
    · cases hfile : files (jsNum cur + 1) with
      | notFound =>
        simp only [upgradeLoopF, if_pos hc, hfile]
        have := ih (some (jsNum cur + 1))
        simp only [jsNum_some] at this
        omega
      | fileErr c =>
        simp only [upgradeLoopF, if_pos hc, hfile]
        exact le_refl _
      | malformed =>
        simp only [upgradeLoopF, if_pos hc, hfile]
        exact le_refl _
      | actions as =>
        rcases hr : runActions schema drv orig as with ⟨cs, e⟩
        cases e with
        | none =>
          simp only [upgradeLoopF, if_pos hc, hfile, hr]
          have := ih (some (jsNum cur + 1))
          simp only [jsNum_some] at this
          omega
        | some e =>
          simp only [upgradeLoopF, if_pos hc, hfile, hr]
          exact le_refl _
    · simp only [upgradeLoopF, if_neg hc]
      exact le_refl _

theorem upgradeLoop_reached_ge (schema : Schema) (drv : Oracle)
    (files : Int → DescriptorFile) (orig L cur : Option Int) :
    jsNum cur ≤ jsNum (upgradeLoop schema drv files orig L cur).2.1 :=
  upgradeLoopF_reached_ge schema drv files orig L _ cur

@[simp] theorem countSetVersion_nil : countSetVersion [] = 0 := rfl

theorem countSetVersion_append (l1 l2 : List Event) :
    countSetVersion (l1 ++ l2) = countSetVersion l1 + countSetVersion l2 := by
  simp [countSetVersion, List.filter_append]

@[simp] theorem countSetVersion_map_call (l : List DriverCall) :
    countSetVersion (l.map Event.call) = 0 := by
  induction l with
  | nil => rfl
  | cons c t ih => simp [countSetVersion, List.filter_cons, isSetVersion]

@[simp] theorem countSetVersion_single_set (v : Option Int) :
    countSetVersion [Event.setVersion v] = 1 := rfl

theorem upgrade_error_eq (schema : Schema) (files : Int → DescriptorFile)
    (L : Option Int) (drv : Oracle) (s : DbState) :
    (upgrade schema files L drv s).error
      = (upgradeLoop schema drv files (getCurrentDbVersion s).2 L
          (getCurrentDbVersion s).2).2.2 := by
  simp only [upgrade]
  split <;> rfl

theorem upgrade_save_eq (schema : Schema) (files : Int → DescriptorFile)
    (L : Option Int) (drv : Oracle) (s : DbState) :
    (upgrade schema files L drv s).saveVersion
      = (match (upgradeLoop schema drv files (getCurrentDbVersion s).2 L
            (getCurrentDbVersion s).2).2.2 with
         | none => L
         | some _ => (upgradeLoop schema drv files (getCurrentDbVersion s).2 L
            (getCurrentDbVersion s).2).2.1) := by
  simp only [upgrade]
  split <;> rfl

theorem upgrade_db_eq_save (schema : Schema) (files : Int → DescriptorFile)
    (L : Option Int) (drv : Oracle) (s : DbState) :
    (upgrade schema files L drv s).db.dbVersion
      = (upgrade schema files L drv s).saveVersion := by
  simp only [upgrade]
  split
  case isTrue h => exact setCurrentDbVersion_dbVersion _ _
  case isFalse h =>
    have h2 := not_ne_iff.mp h
    calc (getCurrentDbVersion s).1.dbVersion
        = (getCurrentDbVersion s).2 := getCurrentDbVersion_fst_dbVersion s
      _ = _ := h2.symm

theorem upgrade_events_eq (schema : Schema) (files : Int → DescriptorFile)
    (L : Option Int) (drv : Oracle) (s : DbState) :
    (upgrade schema files L drv s).events
      = ((upgradeLoop schema drv files (getCurrentDbVersion s).2 L
            (getCurrentDbVersion s).2).1).map Event.call
        ++ (if (upgrade schema files L drv s).saveVersion
              ≠ (getCurrentDbVersion s).2
            then [Event.setVersion (upgrade schema files L drv s).saveVersion]
            else []) := by
  rw [upgrade_save_eq]
  simp only [upgrade]
  split
  case isTrue h => simp [h]
  case isFalse h => simp [h]

theorem upgrade_save_of_error (schema : Schema) (files : Int → DescriptorFile)
    (L : Option Int) (drv : Oracle) (s : DbState) (e : UpErr)
    (he : (upgrade schema files L drv s).error = some e) :
    (upgrade schema files L drv s).saveVersion
      = (upgradeLoop schema drv files (getCurrentDbVersion s).2 L
          (getCurrentDbVersion s).2).2.1 := by
  have h1 := upgrade_error_eq schema files L drv s
  rw [he] at h1
  rw [upgrade_save_eq, ← h1]

theorem runSeq_all_ok (drv : Oracle) (handler : DriverCall → Err → Option UpErr)
    (cs : List DriverCall) (hd : ∀ c, drv c = none) :
    runSeq drv handler cs = (cs, none) := by
  induction cs with
  | nil => rfl
  | cons c rest ih => simp [runSeq, hd c, ih]

/-- C7: calling `setCurrentDbVersion` twice in a row with the same version
leaves the persisted value equal to it, and the second call performs an
update, never an insert; each call re-reads the current value through the
Version Store, inserting a fresh row exactly when that read comes back
absent and updating the existing row when it does not. -/
theorem setCurrentDbVersion_twice_idempotent (s : DbState) (v : Int) :
    (setCurrentDbVersion (setCurrentDbVersion s (some v)).1 (some v)).1.dbVersion
        = some v
    ∧ (setCurrentDbVersion (setCurrentDbVersion s (some v)).1 (some v)).2
        = SetOp.updatedRow
    ∧ (setCurrentDbVersion s (some v)).1.dbVersion = some v
    ∧ ((setCurrentDbVersion s (some v)).2 = SetOp.insertedRow
        ↔ (getCurrentDbVersion s).2 = none)
    ∧ ((setCurrentDbVersion s (some v)).2 = SetOp.updatedRow
        ↔ (getCurrentDbVersion s).2 ≠ none) := by
  rcases s with ⟨g, ver⟩
  cases g <;> cases ver <;>
    simp [setCurrentDbVersion, getCurrentDbVersion, ensureSchemaGlobalsExist]

/-- C9: a `min_version` or `max_version` field that is present but equal to
`0` is falsy, so the applicability test ignores it entirely: the
interpreter behaves exactly as if the bound were absent, and an action is
never skipped on account of a zero bound. -/
theorem zero_bound_ignored (schema : Schema) (drv : Oracle) (orig : Option Int)
    (a : UAction) :
    runAction schema drv orig { a with min_version := some 0 }
        = runAction schema drv orig { a with min_version := none }
    ∧ runAction schema drv orig { a with max_version := some 0 }
        = runAction schema drv orig { a with max_version := none }
    ∧ boundsSkip { a with min_version := some 0, max_version := some 0 } orig
        = false := by
  rcases a with ⟨act, tb, col, fr, to_, nm, q, mn, mx, ig⟩
  refine ⟨?_, ?_, ?_⟩ <;> simp [runAction, boundsSkip, tBound]

/-- C3 counterexample: an action carrying `min_version = 0`, interpreted
against original version `0`, is claimed to be skipped (the original does
not lie strictly above the bound), but the zero bound is falsy, the skip
test passes it over, and the engine runs the action and issues its driver
call. -/
theorem zero_min_bound_runs_at_zero_original_cex :
    runAction [] (fun _ => none) (some 0)
        { baseAction "execute" with query := QVal.str "q", min_version := some 0 }
      = ([DriverCall.rawQuery "q"], none)
    ∧ boundsSkip
        { baseAction "execute" with query := QVal.str "q", min_version := some 0 }
        (some 0) = false := by
  constructor <;> decide

/-- C3 (amended): for an action whose `min_version` and `max_version` are
present and nonzero, the bounds are evaluated against the version the
upgrade started from and are exclusive: the action escapes the skip exactly
when the original version lies strictly between them, and a skipped action
issues no driver call and counts as neither success nor failure (bounds
equal to zero are falsy and are ignored as if absent). -/
theorem nonzero_bounds_exclusive_against_original (schema : Schema)
    (drv : Oracle) (orig : Option Int) (a : UAction) (m M : Int)
    (hm : a.min_version = some m) (hm0 : m ≠ 0)
    (hM : a.max_version = some M) (hM0 : M ≠ 0) :
    (boundsSkip a orig = false ↔ (m < jsNum orig ∧ jsNum orig < M))
    ∧ (boundsSkip a orig = true → runAction schema drv orig a = ([], none)) := by
  constructor
  · simp only [boundsSkip, hm, hM, tBound, jsNum_some]
    simp [hm0, hM0]
  · intro h
    simp [runAction, h]

/-- C3 witness. -/
theorem nonzero_bounds_exclusive_witness :
    (boundsSkip c3WitnessAct (some 2) = false
        ↔ ((1 : Int) < jsNum (some 2) ∧ jsNum (some 2) < 3))
    ∧ (boundsSkip c3WitnessAct (some 2) = true →
        runAction [] (fun _ => none) (some 2) c3WitnessAct = ([], none)) :=
  nonzero_bounds_exclusive_against_original [] (fun _ => none) (some 2)
    c3WitnessAct 1 3 rfl (by decide) rfl (by decide)

/-- C8: against a table declaring columns `[a, b, c]`, an `addColumn`
action targeting `c` issues the alter-table call positioned after `b`,
targeting `a` issues it positioned first, targeting a name absent from the
declared column list fails with `unknown-column`, and targeting a table
absent from the schema document fails with `unknown-table`. -/
theorem addColumn_positioning (t : String) (ca cb cc : ColumnDescription)
    (drv : Oracle) (orig : Option Int)
    (h1 : ca.name ≠ cc.name) (h2 : cb.name ≠ cc.name)
    (hd1 : drv (DriverCall.addColumn t cc (some (ColumnPos.after cb.name))) = none)
    (hd2 : drv (DriverCall.addColumn t ca (some ColumnPos.first)) = none) :
    runAction [(t, { columns := [ca, cb, cc] })] drv orig
        (addColumnAction t cc.name)
      = ([DriverCall.addColumn t cc (some (ColumnPos.after cb.name))], none)
    ∧ runAction [(t, { columns := [ca, cb, cc] })] drv orig
        (addColumnAction t ca.name)
      = ([DriverCall.addColumn t ca (some ColumnPos.first)], none)
    ∧ (∀ x, x ≠ ca.name → x ≠ cb.name → x ≠ cc.name →
        runAction [(t, { columns := [ca, cb, cc] })] drv orig
            (addColumnAction t x)
          = ([], some (UpErr.thrown "unknown-column")))
    ∧ (∀ t2, t2 ≠ t →
        runAction [(t, { columns := [ca, cb, cc] })] drv orig
            (addColumnAction t2 cc.name)
          = ([], some (UpErr.thrown "unknown-table"))) := by
  refine ⟨?_, ?_, ?_, ?_⟩
  · simp [runAction, addColumnAction, baseAction, boundsSkip, tBound,
      columnMutation, computedPos, lookupTable, List.find?,
      List.findIdx_cons, h1, h2, hd1, softThrow]
  · simp [runAction, addColumnAction, baseAction, boundsSkip, tBound,
      columnMutation, computedPos, lookupTable, List.find?,
      List.findIdx_cons, hd2, softThrow]
  · intro x hx1 hx2 hx3
    simp [runAction, addColumnAction, baseAction, boundsSkip, tBound,
      columnMutation, computedPos, lookupTable, List.find?, Ne.symm hx1,
      Ne.symm hx2, Ne.symm hx3, softThrow]
  · intro t2 ht2
    simp [runAction, addColumnAction, baseAction, boundsSkip, tBound,
      lookupTable, List.find?, Ne.symm ht2, softThrow]

/-- C8 witness. -/
theorem addColumn_positioning_witness :
    runAction [("user", { columns := [⟨"a", "integer"⟩, ⟨"b", "integer"⟩,
          ⟨"c", "integer"⟩] })] (fun _ => none) none (addColumnAction "user" "c")
      = ([DriverCall.addColumn "user" ⟨"c", "integer"⟩
          (some (ColumnPos.after "b"))], none)
    ∧ runAction [("user", { columns := [⟨"a", "integer"⟩, ⟨"b", "integer"⟩,
          ⟨"c", "integer"⟩] })] (fun _ => none) none (addColumnAction "user" "a")
      = ([DriverCall.addColumn "user" ⟨"a", "integer"⟩
          (some ColumnPos.first)], none)
    ∧ runAction [("user", { columns := [⟨"a", "integer"⟩, ⟨"b", "integer"⟩,
          ⟨"c", "integer"⟩] })] (fun _ => none) none (addColumnAction "user" "zz")
      = ([], some (UpErr.thrown "unknown-column"))
    ∧ runAction [("user", { columns := [⟨"a", "integer"⟩, ⟨"b", "integer"⟩,
          ⟨"c", "integer"⟩] })] (fun _ => none) none (addColumnAction "other" "c")
      = ([], some (UpErr.thrown "unknown-table")) :=
  have h := addColumn_positioning "user" ⟨"a", "integer"⟩ ⟨"b", "integer"⟩
    ⟨"c", "integer"⟩ (fun _ => none) none (by decide) (by decide) rfl rfl
  ⟨h.1, h.2.1, h.2.2.1 "zz" (by decide) (by decide) (by decide),
    h.2.2.2 "other" (by decide)⟩

/-- C10: for every `addColumn`/`alterColumn` action against any schema, when
the positioned driver call the interpreter issues (carrying the computed
directive — after the predecessor in the declared column order, or first)
fails with code `ER_BAD_FIELD_ERROR`, the engine retries the same column
mutation exactly once without any position directive, and only the retry's
outcome is fed to the `ignore_errors` suppression policy; a first failure
with any other code skips the retry and goes to that policy directly. -/
theorem bad_field_error_retries_unpositioned (schema : Schema) (drv : Oracle)
    (orig : Option Int) (t cn : String) (td : TableDescription)
    (col : ColumnDescription) (e : Err) (ign : Bool)
    (hlk : lookupTable schema t = some td)
    (hfind : List.find? (fun item => item.name = cn) td.columns = some col)
    (hAdd : drv (DriverCall.addColumn t col
      (some (computedPos td.columns cn))) = some e)
    (hAlt : drv (DriverCall.alterColumn t col
      (some (computedPos td.columns cn))) = some e) :
    (e.code = "ER_BAD_FIELD_ERROR" →
      runAction schema drv orig
          { addColumnAction t cn with ignore_errors := ign }
        = ([DriverCall.addColumn t col (some (computedPos td.columns cn)),
            DriverCall.addColumn t col none],
           match drv (DriverCall.addColumn t col none) with
           | none => none
           | some e2 => if ign then none else some (UpErr.driver e2))
      ∧ runAction schema drv orig
          { alterColumnAction t cn with ignore_errors := ign }
        = ([DriverCall.alterColumn t col (some (computedPos td.columns cn)),
            DriverCall.alterColumn t col none],
           match drv (DriverCall.alterColumn t col none) with
           | none => none
           | some e2 => if ign then none else some (UpErr.driver e2)))
    ∧ (e.code ≠ "ER_BAD_FIELD_ERROR" →
      runAction schema drv orig
          { addColumnAction t cn with ignore_errors := ign }
        = ([DriverCall.addColumn t col (some (computedPos td.columns cn))],
           if ign then none else some (UpErr.driver e))
      ∧ runAction schema drv orig
          { alterColumnAction t cn with ignore_errors := ign }
        = ([DriverCall.alterColumn t col (some (computedPos td.columns cn))],
           if ign then none else some (UpErr.driver e))) := by
  constructor
  · intro hcode
    constructor <;>
      simp [runAction, addColumnAction, alterColumnAction, baseAction,
        boundsSkip, tBound, columnMutation, hlk, hfind, hAdd, hAlt, hcode,
        softThrow]
  · intro hcode
    constructor <;>
      simp [runAction, addColumnAction, alterColumnAction, baseAction,
        boundsSkip, tBound, columnMutation, hlk, hfind, hAdd, hAlt, hcode,
        softThrow]

/-- C10 witness: both directives are exercised against the two-column
table — target `b` fails positioned after `a` and is retried
unpositioned, target `a` fails positioned first and is retried
unpositioned; in each case the retry's error surfaces. -/
theorem bad_field_error_retries_witness :
    runAction [("user", c10WitnessTable)] badFieldDrv none
        { addColumnAction "user" "b" with ignore_errors := false }
      = ([DriverCall.addColumn "user" ⟨"b", "integer"⟩
            (some (ColumnPos.after "a")),
          DriverCall.addColumn "user" ⟨"b", "integer"⟩ none],
         some (UpErr.driver ⟨"OTHER_ERROR"⟩))
    ∧ runAction [("user", c10WitnessTable)] badFieldDrv none
        { alterColumnAction "user" "b" with ignore_errors := false }
      = ([DriverCall.alterColumn "user" ⟨"b", "integer"⟩
            (some (ColumnPos.after "a")),
          DriverCall.alterColumn "user" ⟨"b", "integer"⟩ none],
         some (UpErr.driver ⟨"OTHER_ERROR"⟩))
    ∧ runAction [("user", c10WitnessTable)] badFieldDrv none
        { addColumnAction "user" "a" with ignore_errors := false }
      = ([DriverCall.addColumn "user" ⟨"a", "integer"⟩ (some ColumnPos.first),
          DriverCall.addColumn "user" ⟨"a", "integer"⟩ none],
         some (UpErr.driver ⟨"OTHER_ERROR"⟩)) := by
  have hb := (bad_field_error_retries_unpositioned [("user", c10WitnessTable)]
    badFieldDrv none "user" "b" c10WitnessTable ⟨"b", "integer"⟩
    ⟨"ER_BAD_FIELD_ERROR"⟩ false (by decide) (by decide) (by decide)
    (by decide)).1 rfl
  have ha := (bad_field_error_retries_unpositioned [("user", c10WitnessTable)]
    badFieldDrv none "user" "a" c10WitnessTable ⟨"a", "integer"⟩
    ⟨"ER_BAD_FIELD_ERROR"⟩ false (by decide) (by decide) (by decide)
    (by decide)).1 rfl
  exact ⟨hb.1.trans (by decide), hb.2.trans (by decide),
    ha.1.trans (by decide)⟩

/-- C4: a version whose upgrade descriptor is structurally absent is a
no-op step: the loop behaves exactly as if started past that version — no
driver call is tied to it — and the version the loop reaches afterwards
(which is what gets persisted) lies beyond the skipped version. -/
theorem missing_descriptor_advances_without_calls (schema : Schema)
    (drv : Oracle) (files : Int → DescriptorFile) (orig L cur : Option Int)
    (hc : jsNum cur < jsNum L)
    (hf : files (jsNum cur + 1) = DescriptorFile.notFound) :
    upgradeLoop schema drv files orig L cur
      = upgradeLoop schema drv files orig L (some (jsNum cur + 1))
    ∧ jsNum cur + 1 ≤ jsNum (upgradeLoop schema drv files orig L cur).2.1 := by
  have h1 := upgradeLoop_notFound schema drv files orig L cur hc hf
  refine ⟨h1, ?_⟩
  rw [h1]
  have h2 := upgradeLoop_reached_ge schema drv files orig L (some (jsNum cur + 1))
  simpa using h2

/-- C4 witness. -/
theorem missing_descriptor_advances_witness :
    upgradeLoop [] (fun _ => none) (fun _ => DescriptorFile.notFound)
        (some 0) (some 2) (some 0)
      = upgradeLoop [] (fun _ => none) (fun _ => DescriptorFile.notFound)
        (some 0) (some 2) (some 1)
    ∧ jsNum (some 0) + 1
        ≤ jsNum (upgradeLoop [] (fun _ => none) (fun _ => DescriptorFile.notFound)
            (some 0) (some 2) (some 0)).2.1 :=
  missing_descriptor_advances_without_calls [] (fun _ => none)
    (fun _ => DescriptorFile.notFound) (some 0) (some 2) (some 0)
    (by decide) rfl

/-- C5: a descriptor that exists but fails to parse aborts the loop
immediately with the parse error — no driver call for that version, no
version advance — and on such an aborted run the bookkeeping row afterwards
holds exactly the version the loop had reached, preserving the progress of
the earlier versions. -/
theorem malformed_descriptor_aborts_preserving_progress (schema : Schema)
    (drv : Oracle) (files : Int → DescriptorFile) (orig L cur : Option Int)
    (latest : Option Int) (s : DbState) (v0 : Int)
    (hc : jsNum cur < jsNum L)
    (hf : files (jsNum cur + 1) = DescriptorFile.malformed)
    (hs : (getCurrentDbVersion s).2 = some v0) :
    upgradeLoop schema drv files orig L cur = ([], cur, some UpErr.parse)
    ∧ ((upgrade schema files latest drv s).error = some UpErr.parse →
        (upgrade schema files latest drv s).db.dbVersion
          = (upgradeLoop schema drv files (some v0) latest (some v0)).2.1) := by
  refine ⟨upgradeLoop_malformed schema drv files orig L cur hc hf, ?_⟩
  intro he
  rw [upgrade_db_eq_save,
    upgrade_save_of_error schema files latest drv s UpErr.parse he, hs]

/-- C5 witness. -/
theorem malformed_descriptor_aborts_witness :
    upgradeLoop [] (fun _ => none) c5WitnessFiles (some 1) (some 2) (some 1)
      = ([], some 1, some UpErr.parse)
    ∧ ((upgrade [] c5WitnessFiles (some 2) (fun _ => none)
          ⟨true, some 1⟩).error = some UpErr.parse →
        (upgrade [] c5WitnessFiles (some 2) (fun _ => none)
          ⟨true, some 1⟩).db.dbVersion
          = (upgradeLoop [] (fun _ => none) c5WitnessFiles (some 1) (some 2)
              (some 1)).2.1) :=
  malformed_descriptor_aborts_preserving_progress [] (fun _ => none)
    c5WitnessFiles (some 1) (some 2) (some 1) (some 2) ⟨true, some 1⟩ 1
    (by decide) (by decide) rfl

/-- C1 counterexample: persisted version 1, latest 2, and version 2's only
action fails without suppression; the upgrade aborts and re-raises the
driver error, but the Version Store is invoked zero times — not "exactly
once" — because the guard `saveVersion !== originalVersion` skips the
persist when nothing was completed; the row still holds 1 only because it
already did. -/
theorem upgrade_first_version_abort_skips_persist_cex :
    (upgrade [] c1CexFiles (some 2) boomDrv ⟨true, some 1⟩).error
        = some (UpErr.driver ⟨"SOME_DB_ERROR"⟩)
    ∧ countSetVersion (upgrade [] c1CexFiles (some 2) boomDrv
        ⟨true, some 1⟩).events = 0
    ∧ (upgrade [] c1CexFiles (some 2) boomDrv ⟨true, some 1⟩).db.dbVersion
        = some 1 := by
  refine ⟨?_, ?_, ?_⟩ <;> decide

/-- C1 (amended): when an upgrade that started from recorded version v0
aborts with an error, the Version Store is invoked at most once, after
every driver call of the loop: exactly once when the version the loop
reached differs from v0, and zero times when the failure hit the first
pending version (the engine skips the store call because the value to save
equals the original — the row then already holds that value).  In every
case the bookkeeping row afterwards equals the reached version, the last
fully completed one, and the aborting error is re-raised to the caller
only after any persist. -/
theorem upgrade_abort_persists_reached_version (schema : Schema)
    (files : Int → DescriptorFile) (latest : Option Int) (drv : Oracle)
    (s : DbState) (v0 : Int) (e : UpErr)
    (hs : (getCurrentDbVersion s).2 = some v0)
    (he : (upgrade schema files latest drv s).error = some e) :
    (upgrade schema files latest drv s).db.dbVersion
        = (upgradeLoop schema drv files (some v0) latest (some v0)).2.1
    ∧ countSetVersion (upgrade schema files latest drv s).events
        = (if (upgradeLoop schema drv files (some v0) latest (some v0)).2.1
              = some v0 then 0 else 1)
    ∧ (upgrade schema files latest drv s).events
        = ((upgradeLoop schema drv files (some v0) latest (some v0)).1).map
            Event.call
          ++ (if (upgradeLoop schema drv files (some v0) latest
                (some v0)).2.1 = some v0 then []
              else [Event.setVersion
                (upgradeLoop schema drv files (some v0) latest
                  (some v0)).2.1]) := by
  have hsave := upgrade_save_of_error schema files latest drv s e he
  rw [hs] at hsave
  have hev := upgrade_events_eq schema files latest drv s
  rw [hs, hsave] at hev
  by_cases hr : (upgradeLoop schema drv files (some v0) latest (some v0)).2.1
      = some v0
  · refine ⟨?_, ?_, ?_⟩
    · rw [upgrade_db_eq_save, hsave]
    · rw [hev]
      simp [hr, countSetVersion_append]
    · rw [hev]
      simp [hr]
  · refine ⟨?_, ?_, ?_⟩
    · rw [upgrade_db_eq_save, hsave]
    · rw [hev]
      simp [hr, countSetVersion_append]
    · rw [hev]
      simp [hr]

/-- C1 witness: from version 1 toward latest 3, version 2 completes and
version 3 aborts; one persist of the reached version 2 happens, after the
loop's driver call. -/
theorem upgrade_abort_persists_reached_witness :
    (upgrade [] c1WitnessFiles (some 3) boomDrv ⟨true, some 1⟩).db.dbVersion
        = (upgradeLoop [] boomDrv c1WitnessFiles (some 1) (some 3)
            (some 1)).2.1
    ∧ countSetVersion (upgrade [] c1WitnessFiles (some 3) boomDrv
          ⟨true, some 1⟩).events
        = (if (upgradeLoop [] boomDrv c1WitnessFiles (some 1) (some 3)
              (some 1)).2.1 = some 1 then 0 else 1)
    ∧ (upgrade [] c1WitnessFiles (some 3) boomDrv ⟨true, some 1⟩).events
        = ((upgradeLoop [] boomDrv c1WitnessFiles (some 1) (some 3)
            (some 1)).1).map Event.call
          ++ (if (upgradeLoop [] boomDrv c1WitnessFiles (some 1) (some 3)
                (some 1)).2.1 = some 1 then []
              else [Event.setVersion
                (upgradeLoop [] boomDrv c1WitnessFiles (some 1) (some 3)
                  (some 1)).2.1]) :=
  upgrade_abort_persists_reached_version [] c1WitnessFiles (some 3) boomDrv
    ⟨true, some 1⟩ 1 (UpErr.driver ⟨"SOME_DB_ERROR"⟩) rfl (by decide)

/-- C2: invoked against a database whose persisted version is absent, the
engine does not fail with the documented `empty-database` condition.  The
null version coerces to 0, the loop runs version 1's script (a driver call
is issued), the run succeeds, and version 1 is persisted — contradicting
the claim (and the function's own doc comment) on every count. -/
theorem upgrade_empty_database_runs_and_persists :
    (upgrade [] c2Files (some 1) (fun _ => none) ⟨true, none⟩).error = none
    ∧ (upgrade [] c2Files (some 1) (fun _ => none) ⟨true, none⟩).events
        = [Event.call (DriverCall.rawQuery "SELECT 1"),
           Event.setVersion (some 1)]
    ∧ (upgrade [] c2Files (some 1) (fun _ => none) ⟨true, none⟩).db.dbVersion
        = some 1 := by
  refine ⟨?_, ?_, ?_⟩ <;> decide

/-- C6 counterexample: a schema document with no tables and one raw
bootstrap entry `""` — install issues no raw-query call for it (a falsy
joined string is skipped), refuting "every raw bootstrap query is
issued". -/
theorem install_skips_empty_raw_query_cex :
    (install [] [QVal.str ""] (some 1) false (fun _ => none)
        ⟨true, some 0⟩).events
      = [Event.setVersion (some 1)]
    ∧ installRawCalls [QVal.str ""] = [] := by
  constructor <;> decide

/-- C6 (amended): under a driver that accepts every call, install issues
exactly one table-creation call per declared table, in declared order,
followed by the raw bootstrap queries that normalize to a nonempty string
(entries that are empty strings or empty sequences are skipped), in
declared order, followed by one index-application call per table, then one
foreign-key-application call per table, and finally persists the latest
declared version; no call of a later phase precedes one of an earlier
phase. -/
theorem install_phase_ordering (tables : List (String × TableDescription))
    (raws : List QVal) (latestV : Option Int) (ie : Bool) (drv : Oracle)
    (s : DbState) (hd : ∀ c, drv c = none) :
    (install tables raws latestV ie drv s).events
      = (tables.map (fun p => Event.call (DriverCall.createTable p.1)))
        ++ ((installRawCalls raws).map Event.call)
        ++ (tables.map (fun p => Event.call (DriverCall.createTableIndexes p.1)))
        ++ (tables.map (fun p =>
              Event.call (DriverCall.createTableForeignKeys p.1)))
        ++ [Event.setVersion latestV]
    ∧ (install tables raws latestV ie drv s).db.dbVersion = latestV
    ∧ (install tables raws latestV ie drv s).error = none := by
  simp only [install]
  rw [runSeq_all_ok _ _ _ hd, runSeq_all_ok _ _ _ hd, runSeq_all_ok _ _ _ hd,
    runSeq_all_ok _ _ _ hd]
  refine ⟨?_, ?_, ?_⟩
  · simp [List.map_append, Function.comp_def]
  · simp [setCurrentDbVersion_dbVersion]
  · rfl

/-- C6 witness. -/
theorem install_phase_ordering_witness :
    (install [("user", { columns := [⟨"id", "increments"⟩] })] [QVal.str "Q"]
        (some 1) false (fun _ => none) ⟨true, none⟩).events
      = [Event.call (DriverCall.createTable "user"),
         Event.call (DriverCall.rawQuery "Q"),
         Event.call (DriverCall.createTableIndexes "user"),
         Event.call (DriverCall.createTableForeignKeys "user"),
         Event.setVersion (some 1)]
    ∧ (install [("user", { columns := [⟨"id", "increments"⟩] })] [QVal.str "Q"]
        (some 1) false (fun _ => none) ⟨true, none⟩).db.dbVersion = some 1
    ∧ (install [("user", { columns := [⟨"id", "increments"⟩] })] [QVal.str "Q"]
        (some 1) false (fun _ => none) ⟨true, none⟩).error = none :=
  have h := install_phase_ordering
    [("user", { columns := [⟨"id", "increments"⟩] })] [QVal.str "Q"]
    (some 1) false (fun _ => none) ⟨true, none⟩ (fun _ => rfl)
  ⟨h.1.trans (by decide), h.2.1, h.2.2⟩

end Knex
